import Mathlib

/-!
# Verification of the nerf-turret control software

Shallow embedding of the turret control program and proofs of the spec's
claims about it.  The repository contains two hardware stacks:

* `src/encoder.py` + `src/stepper.py` (used by `turretd.py` / `stepperctl.py`),
  embedded below in the root namespace;
* `src/server/stepper.py` (used by `src/server/__main__.py`), embedded below
  in the `Srv` namespace.

Python floats are modelled as exact rationals (`ℚ`), Python ints as `ℤ`/`ℕ`,
and bus / GPIO side effects as explicit traces of written values.
-/

/-- Python's `%` operator on floats with a positive modulus:
`x % m = x - m * floor (x / m)`.  Both encoder variants normalise their
result with `% 360`. -/
def pymod (x m : ℚ) : ℚ := x - m * ⌊x / m⌋

/-- For a nonzero modulus, `pymod` is the modulus times the fractional part
of the quotient. -/
lemma pymod_eq_mul_fract (x m : ℚ) (hm : m ≠ 0) :
    pymod x m = m * Int.fract (x / m) := by
  unfold pymod Int.fract
  field_simp

/-- Python `%` with a positive modulus lands in `[0, m)`. -/
lemma pymod_nonneg_lt (x m : ℚ) (hm : 0 < m) :
    0 ≤ pymod x m ∧ pymod x m < m := by
  rw [pymod_eq_mul_fract x m (ne_of_gt hm)]
  constructor
  · exact mul_nonneg (le_of_lt hm) (Int.fract_nonneg _)
  · calc m * Int.fract (x / m) < m * 1 :=
        (mul_lt_mul_left hm).mpr (Int.fract_lt_one _)
    _ = m := mul_one m

/-! ## Angle sensors

`src/encoder.py` (`Encoder.angle`): reads the low byte at sub-address `0x0d`
and the high byte at `0x0c`, combines them as `(hi << 8) + lo`, scales by
`360 / 4096` and reduces `% 360`.  No per-channel offset is involved.

`src/server/stepper.py` (`Srv.Encoder.angle`): reads `theta1` at `0x0e` and
`theta2` at `0x0f`, combines them as `(theta1 << 8) + theta2`, subtracts the
per-channel zero offset, and reduces `% 360`.  No scaling is applied. -/

namespace Encoder

/-- `src/encoder.py` `Encoder.angle`, as a function of the two raw register
bytes: `((hi << 8) + lo) * 360 / 4096 % 360`. -/
def angle (hi lo : ℕ) : ℚ :=
  pymod (((hi * 256 + lo : ℕ) : ℚ) * 360 / 4096) 360

end Encoder

namespace Srv

namespace Encoder

/-- `src/server/stepper.py` `Encoder.angle`, as a function of the two raw
register bytes and the channel's zero offset:
`((theta1 << 8) + theta2 - zero) % 360`. -/
def angle (theta1 theta2 : ℕ) (zero : ℚ) : ℚ :=
  pymod (((theta1 * 256 + theta2 : ℕ) : ℚ) - zero) 360

end Encoder

end Srv

/-! ## Multiplexer channel selection

The bus side effects of a `with mux.select(c) as enc: body` block are
modelled as the list of bytes written to the mux control register, in
order.  The body is an `Except` value: `Except.error` models the caller's
read raising inside the scope. -/

/-- Outcome of a scoped mux selection: the selection itself can be rejected
(`invalidChannel`), the caller's body can raise (`bodyFailed`), or the body
completes (`ok`). -/
inductive MuxResult (ε α : Type) where
  | invalidChannel : MuxResult ε α
  | bodyFailed (e : ε) : MuxResult ε α
  | ok (a : α) : MuxResult ε α
  deriving DecidableEq, Repr

namespace EncoderMultiplexer

/-- `src/encoder.py` `EncoderMultiplexer.select`: raises `ValueError` unless
`0 ≤ idx < 8` (before any bus write); otherwise writes `idx` to the mux
control register, runs the body, and in a `finally` block writes `0`
(neutral) — also when the body raises, in which case the body's exception
propagates after the restore. -/
def select {ε α : Type} (idx : ℤ) (body : Except ε α) :
    MuxResult ε α × List ℤ :=
  if 0 ≤ idx ∧ idx < 8 then
    (match body with
      | .ok a => .ok a
      | .error e => .bodyFailed e,
     [idx, 0])
  else
    (.invalidChannel, [])

end EncoderMultiplexer

namespace Srv

namespace EncoderMultiplexer

/-- `src/server/stepper.py` `EncoderMultiplexer.select` /
`_EncoderContext`: `__enter__` writes the port byte to the mux control
register with no range check, and `__exit__` returns `None` without writing
anything, so the mux is left on the selected port and body exceptions
propagate. -/
def select {ε α : Type} (port : ℤ) (body : Except ε α) :
    MuxResult ε α × List ℤ :=
  (match body with
    | .ok a => .ok a
    | .error e => .bodyFailed e,
   [port])

end EncoderMultiplexer

end Srv

/-! ## Steppers

Both variants drive the motor with the same loop shape:
`while abs(current_angle - target) > tol: step()`, with the direction chosen
once, by comparing the current angle with the target, before the loop.
The physical plant (motor + encoder) is modelled by the simulation
assumption of claim C1: every emitted step moves the angle read back from
the encoder by exactly one step granularity `δ` in the commanded
direction.  The loop gets a fuel argument; `none` means the fuel ran out
before the loop condition became false. -/

/-- Direction of motor rotation (`"cw"`/`"ccw"` strings in
`src/stepper.py`, the `Direction` IntEnum in `src/server/stepper.py`). -/
inductive Direction where
  | cw
  | ccw
  deriving DecidableEq, Repr

/-- The convergence `while` loop common to `Stepper.angle`'s setter
(`src/stepper.py`) and `Stepper.to_angle` (`src/server/stepper.py`): while
`|angle - target| > tol`, emit one step, which moves the simulated angle by
`δ` clockwise (`cw = true`, increasing) or counterclockwise (decreasing).
Returns the final angle and the number of steps emitted by the loop. -/
def stepLoop (target tol δ : ℚ) (cw : Bool) : ℕ → ℚ → Option (ℚ × ℕ)
  | 0, a => if |a - target| ≤ tol then some (a, 0) else none
  | fuel + 1, a =>
    if |a - target| ≤ tol then some (a, 0)
    else
      match stepLoop target tol δ cw fuel (if cw then a + δ else a - δ) with
      | some (fin, k) => some (fin, k + 1)
      | none => none

/-- A clockwise run of the loop converges: if the angle starts at most
`tol` beyond the target on the clockwise side and the fuel covers the
remaining distance, the loop terminates within tolerance. -/
lemma stepLoop_cw_converges (target tol δ : ℚ) (hδ : 0 < δ) (htol : δ ≤ tol) :
    ∀ (fuel : ℕ) (a : ℚ), a - target ≤ tol → target - a ≤ tol + fuel * δ →
      ∃ fin k, stepLoop target tol δ true fuel a = some (fin, k) ∧
        |fin - target| ≤ tol := by
  intro fuel
  induction fuel with
  | zero =>
    intro a h1 h2
    push_cast at h2
    have hc : |a - target| ≤ tol := by
      rw [abs_le]
      exact ⟨by linarith, by linarith⟩
    exact ⟨a, 0, by simp [stepLoop, hc], hc⟩
  | succ n ih =>
    intro a h1 h2
    push_cast at h2
    by_cases hc : |a - target| ≤ tol
    · exact ⟨a, 0, by simp [stepLoop, hc], hc⟩
    · have habs : tol < |a - target| := not_le.mp hc
      have h3 : tol < target - a := by
        rcases abs_cases (a - target) with ⟨he, _⟩ | ⟨he, _⟩ <;> linarith
      have h1' : (a + δ) - target ≤ tol := by linarith
      have h2' : target - (a + δ) ≤ tol + n * δ := by linarith
      obtain ⟨fin, k, hloop, hfin⟩ := ih (a + δ) h1' h2'
      exact ⟨fin, k + 1, by simp [stepLoop, hc, hloop], hfin⟩

/-- A counterclockwise run of the loop converges, symmetrically. -/
lemma stepLoop_ccw_converges (target tol δ : ℚ) (hδ : 0 < δ) (htol : δ ≤ tol) :
    ∀ (fuel : ℕ) (a : ℚ), target - a ≤ tol → a - target ≤ tol + fuel * δ →
      ∃ fin k, stepLoop target tol δ false fuel a = some (fin, k) ∧
        |fin - target| ≤ tol := by
  intro fuel
  induction fuel with
  | zero =>
    intro a h1 h2
    push_cast at h2
    have hc : |a - target| ≤ tol := by
      rw [abs_le]
      exact ⟨by linarith, by linarith⟩
    exact ⟨a, 0, by simp [stepLoop, hc], hc⟩
  | succ n ih =>
    intro a h1 h2
    push_cast at h2
    by_cases hc : |a - target| ≤ tol
    · exact ⟨a, 0, by simp [stepLoop, hc], hc⟩
    · have habs : tol < |a - target| := not_le.mp hc
      have h3 : tol < a - target := by
        rcases abs_cases (a - target) with ⟨he, _⟩ | ⟨he, _⟩ <;> linarith
      have h1' : target - (a - δ) ≤ tol := by linarith
      have h2' : (a - δ) - target ≤ tol + n * δ := by linarith
      obtain ⟨fin, k, hloop, hfin⟩ := ih (a - δ) h1' h2'
      exact ⟨fin, k + 1, by simp [stepLoop, hc, hloop], hfin⟩

namespace Stepper

/-- `src/stepper.py` `Stepper.angle` setter: chooses `"cw"` when
`new_angle > self.angle`, `"ccw"` when `new_angle < self.angle`, and
returns immediately (no direction write, no step) when they are equal;
then runs `while abs(self.angle - new_angle) > self._step_deg: self.step()`
— the tolerance is the step granularity itself.  Result: final angle, the
direction written (if any), and the number of steps emitted. -/
def angle_set (δ : ℚ) (fuel : ℕ) (a target : ℚ) :
    Option (ℚ × Option Direction × ℕ) :=
  if target > a then
    (stepLoop target δ δ true fuel a).map fun p => (p.1, some Direction.cw, p.2)
  else if target < a then
    (stepLoop target δ δ false fuel a).map fun p => (p.1, some Direction.ccw, p.2)
  else
    some (a, none, 0)

end Stepper

namespace Srv

namespace Stepper

/-- `src/server/stepper.py` `Stepper.to_angle`: returns immediately when
GPIO is unavailable; otherwise takes `tol := abs(tol)`, chooses `CW` when
`enc.angle < angle` else `CCW`, emits one unconditional step (the stalled
encoder sanity check only warns), then runs
`while abs(enc.angle - angle) > tol: self.step()`.  Result: final angle,
the direction written, and the total number of steps emitted. -/
def to_angle (hasGpio : Bool) (δ tol : ℚ) (fuel : ℕ) (a target : ℚ) :
    Option (ℚ × Option Direction × ℕ) :=
  match hasGpio with
  | false => some (a, none, 0)
  | true =>
  if a < target then
    (stepLoop target |tol| δ true fuel (a + δ)).map
      fun p => (p.1, some Direction.cw, p.2 + 1)
  else
    (stepLoop target |tol| δ false fuel (a - δ)).map
      fun p => (p.1, some Direction.ccw, p.2 + 1)

end Stepper

end Srv

/-- C2 counterexample: the claim fails on `src/server/stepper.py`.
`select(8)` (out of range) succeeds and writes the byte `8` to the mux,
instead of failing with `InvalidChannel` before any bus write; and an
in-range `select(3)` whose body read fails leaves the mux asserted on
channel `3` on scope exit — nothing is written to restore a neutral
state. -/
theorem C2_select_counterexample :
    (Srv.EncoderMultiplexer.select 8 (Except.ok 0) :
        MuxResult Unit ℤ × List ℤ) = (.ok 0, [8]) ∧
    (Srv.EncoderMultiplexer.select 3 (Except.error ()) :
        MuxResult Unit ℤ × List ℤ) = (.bodyFailed (), [3]) :=
  ⟨rfl, rfl⟩

/-- C2 (amended): for the `src/encoder.py` multiplexer, every in-range
`select(c)` writes `c` then the neutral byte `0` — the restore happens even
when the caller's read inside the scope fails, whose error then propagates
— and every out-of-range `select(c)` fails with `InvalidChannel` and
performs no bus write.  The `src/server/stepper.py` variant instead performs
exactly one write of the (unvalidated) port byte and never restores. -/
theorem C2_select_amended {ε α : Type} (idx : ℤ) (body : Except ε α) :
    (0 ≤ idx ∧ idx < 8 →
      (EncoderMultiplexer.select idx body).2 = [idx, 0] ∧
      (∀ a, body = Except.ok a →
        EncoderMultiplexer.select idx body = (.ok a, [idx, 0])) ∧
      (∀ e, body = Except.error e →
        EncoderMultiplexer.select idx body = (.bodyFailed e, [idx, 0]))) ∧
    (¬(0 ≤ idx ∧ idx < 8) →
      EncoderMultiplexer.select idx body = (.invalidChannel, [])) ∧
    (Srv.EncoderMultiplexer.select idx body).2 = [idx] := by
  refine ⟨fun h => ?_, fun h => ?_, ?_⟩
  · cases body with
    | ok a => simp [EncoderMultiplexer.select, h]
    | error e => simp [EncoderMultiplexer.select, h]
  · simp [EncoderMultiplexer.select, h]
  · cases body <;> rfl

/-- C2 witness: instantiating the amended theorem at channel `3` with a
failing body read: the error propagates and the trace ends in the neutral
write. -/
theorem C2_select_witness :
    (EncoderMultiplexer.select 3 (Except.error ()) :
        MuxResult Unit ℤ × List ℤ) = (.bodyFailed (), [3, 0]) :=
  ((@C2_select_amended Unit ℤ 3 (Except.error ())).1 (by decide)).2.2 () rfl

/-- C3 counterexample: the claim fails on `src/server/stepper.py`, whose
`Encoder.angle` applies no `360/4096` scaling: raw register value `2048`
(bytes `8`, `0`) with offset `0` yields `2048 % 360 = 248`, not `180`. -/
theorem C3_angle_counterexample :
    Srv.Encoder.angle 8 0 0 = 248 ∧ (248 : ℚ) ≠ 180 := by
  constructor
  · norm_num [Srv.Encoder.angle, pymod]
  · norm_num

/-- C3 (amended): both sensor variants return a value in `[0, 360)` for
every raw register value and offset.  `src/encoder.py` scales the raw value
by `360/4096` with no per-channel offset and maps raw `2048` to `180`;
`src/server/stepper.py` subtracts the per-channel offset with no scaling
(`(r − o) mod 360`, in range regardless of the offset's sign) and maps raw
`2048` with offset `0` to `248`. -/
theorem C3_angle_amended (hi lo t1 t2 : ℕ) (zero : ℚ) :
    (0 ≤ Encoder.angle hi lo ∧ Encoder.angle hi lo < 360) ∧
    (0 ≤ Srv.Encoder.angle t1 t2 zero ∧ Srv.Encoder.angle t1 t2 zero < 360) ∧
    Encoder.angle 8 0 = 180 ∧
    Srv.Encoder.angle 8 0 0 = 248 := by
  refine ⟨?_, ?_, ?_, ?_⟩
  · exact pymod_nonneg_lt _ _ (by norm_num)
  · exact pymod_nonneg_lt _ _ (by norm_num)
  · norm_num [Encoder.angle, pymod]
  · norm_num [Srv.Encoder.angle, pymod]

/-- C1: for any step granularity `0 < δ` and tolerance `tol ≥ δ`, under the
claim's monotone-plant simulation both closed-loop moves terminate (some
fuel makes the loop finish) with the final angle within tolerance of the
target: `Stepper.to_angle` (`src/server/stepper.py`, tolerance `tol`) and
the `Stepper.angle` setter (`src/stepper.py`, whose tolerance is the step
granularity itself). -/
theorem C1_move_terminates (δ tol a target : ℚ) (hδ : 0 < δ)
    (htol : δ ≤ tol) :
    (∃ fuel r, Srv.Stepper.to_angle true δ tol fuel a target = some r ∧
      |r.1 - target| ≤ tol) ∧
    (∃ fuel r, Stepper.angle_set δ fuel a target = some r ∧
      |r.1 - target| ≤ δ) := by
  have htolpos : 0 < tol := lt_of_lt_of_le hδ htol
  have habs : |tol| = tol := abs_of_pos htolpos
  constructor
  · by_cases h : a < target
    · obtain ⟨n, hn⟩ := exists_nat_ge ((target - (a + δ)) / δ)
      have hdist : target - (a + δ) ≤ (n : ℚ) * δ := by
        calc target - (a + δ) = ((target - (a + δ)) / δ) * δ := by
              field_simp
        _ ≤ (n : ℚ) * δ := by
              exact mul_le_mul_of_nonneg_right hn (le_of_lt hδ)
      obtain ⟨fin, k, hloop, hfin⟩ :=
        stepLoop_cw_converges target tol δ hδ htol n (a + δ)
          (by linarith) (by linarith)
      refine ⟨n, (fin, some Direction.cw, k + 1), ?_, by simpa using hfin⟩
      simp [Srv.Stepper.to_angle, h, habs, hloop]
    · obtain ⟨n, hn⟩ := exists_nat_ge (((a - δ) - target) / δ)
      have hge : target ≤ a := le_of_not_lt h
      have hdist : (a - δ) - target ≤ (n : ℚ) * δ := by
        calc (a - δ) - target = (((a - δ) - target) / δ) * δ := by
              field_simp
        _ ≤ (n : ℚ) * δ := by
              exact mul_le_mul_of_nonneg_right hn (le_of_lt hδ)
      obtain ⟨fin, k, hloop, hfin⟩ :=
        stepLoop_ccw_converges target tol δ hδ htol n (a - δ)
          (by linarith) (by linarith)
      refine ⟨n, (fin, some Direction.ccw, k + 1), ?_, by simpa using hfin⟩
      simp [Srv.Stepper.to_angle, h, habs, hloop]
  · rcases lt_trichotomy a target with h | h | h
    · obtain ⟨n, hn⟩ := exists_nat_ge ((target - a) / δ)
      have hdist : target - a ≤ (n : ℚ) * δ := by
        calc target - a = ((target - a) / δ) * δ := by field_simp
        _ ≤ (n : ℚ) * δ := mul_le_mul_of_nonneg_right hn (le_of_lt hδ)
      obtain ⟨fin, k, hloop, hfin⟩ :=
        stepLoop_cw_converges target δ δ hδ le_rfl n a
          (by linarith) (by linarith)
      refine ⟨n, (fin, some Direction.cw, k), ?_, by simpa using hfin⟩
      simp [Stepper.angle_set, h, hloop]
    · exact ⟨0, (a, none, 0), by simp [Stepper.angle_set, h], by
        simp [h, sub_self, abs_zero]
        exact le_of_lt hδ⟩
    · obtain ⟨n, hn⟩ := exists_nat_ge ((a - target) / δ)
      have hdist : a - target ≤ (n : ℚ) * δ := by
        calc a - target = ((a - target) / δ) * δ := by field_simp
        _ ≤ (n : ℚ) * δ := mul_le_mul_of_nonneg_right hn (le_of_lt hδ)
      obtain ⟨fin, k, hloop, hfin⟩ :=
        stepLoop_ccw_converges target δ δ hδ le_rfl n a
          (by linarith) (by linarith)
      refine ⟨n, (fin, some Direction.ccw, k), ?_, by simpa using hfin⟩
      simp [Stepper.angle_set, h, not_lt_of_gt h, hloop]

/-- C1 witness: granularity `1`, tolerance `2`, moving from `0` to `10`. -/
theorem C1_move_terminates_witness :
    (0 : ℚ) < 1 ∧ (1 : ℚ) ≤ 2 ∧
      ((∃ fuel r, Srv.Stepper.to_angle true 1 2 fuel 0 10 = some r ∧
          |r.1 - 10| ≤ 2) ∧
        (∃ fuel r, Stepper.angle_set 1 fuel 0 10 = some r ∧
          |r.1 - 10| ≤ 1)) :=
  ⟨by norm_num, by norm_num,
    C1_move_terminates 1 2 0 10 (by norm_num) (by norm_num)⟩

/-- C6 counterexample: the claim fails on `src/server/stepper.py`'s
`Stepper.to_angle`: with the current angle equal to the target (granularity
`1`, tolerance `2`), the move still writes direction `CCW` and emits one
step pulse — the angle ends at `-1`, not at the target — instead of being
treated as immediately converged with no pulse. -/
theorem C6_direction_counterexample :
    Srv.Stepper.to_angle true 1 2 1 0 0 =
      some (-1, some Direction.ccw, 1) ∧ (1 : ℕ) ≠ 0 := by
  constructor
  · norm_num [Srv.Stepper.to_angle, stepLoop]
  · decide

/-- C6 (amended): in both variants the direction written is `CW` exactly
when the current angle is strictly less than the target.  The tie-break at
equality differs: `src/stepper.py`'s `Stepper.angle` setter returns
immediately (no direction write, no step pulse), while
`src/server/stepper.py`'s `Stepper.to_angle` writes `CCW` and emits exactly
one step pulse, finishing one granularity below the target. -/
theorem C6_direction_amended (δ tol a target : ℚ) (fuel : ℕ) (hδ : 0 < δ)
    (htol : δ ≤ tol) :
    (∀ r, Srv.Stepper.to_angle true δ tol fuel a target = some r →
      r.2.1 = some (if a < target then Direction.cw else Direction.ccw)) ∧
    Srv.Stepper.to_angle true δ tol fuel a a =
      some (a - δ, some Direction.ccw, 1) ∧
    (∀ r, Stepper.angle_set δ fuel a target = some r →
      (a < target → r.2.1 = some Direction.cw) ∧
      (target < a → r.2.1 = some Direction.ccw)) ∧
    Stepper.angle_set δ fuel a a = some (a, none, 0) := by
  have htolpos : 0 < tol := lt_of_lt_of_le hδ htol
  refine ⟨?_, ?_, ?_, ?_⟩
  · intro r hr
    unfold Srv.Stepper.to_angle at hr
    by_cases h : a < target
    · rw [if_pos h, Option.map_eq_some'] at hr
      obtain ⟨p, _, hp⟩ := hr
      rw [← hp]
      simp [h]
    · rw [if_neg h, Option.map_eq_some'] at hr
      obtain ⟨p, _, hp⟩ := hr
      rw [← hp]
      simp [h]
  · have hcond : |δ| ≤ |tol| := by
      rw [abs_of_pos hδ, abs_of_pos htolpos]
      exact htol
    have hnot : ¬ |tol| < |δ| := not_lt.mpr hcond
    cases fuel <;>
      simp [Srv.Stepper.to_angle, stepLoop, lt_irrefl, hcond, hnot]
  · intro r hr
    unfold Stepper.angle_set at hr
    constructor
    · intro h
      rw [if_pos (show target > a from h), Option.map_eq_some'] at hr
      obtain ⟨p, _, hp⟩ := hr
      rw [← hp]
    · intro h
      rw [if_neg (show ¬target > a from not_lt_of_gt h),
        if_pos (show target < a from h), Option.map_eq_some'] at hr
      obtain ⟨p, _, hp⟩ := hr
      rw [← hp]
  · simp [Stepper.angle_set, lt_irrefl]

/-- C6 witness: instantiating the amended theorem with equal current and
target angles (granularity `1`, tolerance `2`, fuel `3`): `to_angle` writes
`CCW` and emits exactly one pulse. -/
theorem C6_direction_witness :
    Srv.Stepper.to_angle true 1 2 3 0 0 = some (0 - 1, some Direction.ccw, 1) :=
  (C6_direction_amended 1 2 0 0 3 (by norm_num) (by norm_num)).2.1

namespace Stepper

/-- `src/stepper.py` `Stepper.direction` setter: after validating the
string, stores the new direction and then writes the direction pin
unconditionally — `off` (`false`) for `"cw"`, `on` (`true`) for `"ccw"` —
whether or not the direction changed.  Result: stored direction and the
list of pin writes. -/
def direction_set (cur new : Direction) : Direction × List Bool :=
  (new, [decide (new = Direction.ccw)])

end Stepper

namespace Srv

namespace Stepper

/-- `src/server/stepper.py` `Stepper.direction` setter: writes the
direction pin (`HIGH`/`true` for `CW`, `LOW`/`false` for `CCW`) only when
the new value differs from the stored one and GPIO is available, then
stores the new direction. -/
def direction_set (hasGpio : Bool) (cur new : Direction) :
    Direction × List Bool :=
  (new, if cur ≠ new ∧ hasGpio = true then [decide (new = Direction.cw)] else [])

end Stepper

end Srv

/-- C8 counterexample: the claim fails on `src/stepper.py`, whose
`Stepper.direction` setter writes the direction pin on every assignment:
setting the direction to its current value `"cw"` still performs a pin
write. -/
theorem C8_direction_counterexample :
    (Stepper.direction_set Direction.cw Direction.cw).1 = Direction.cw ∧
    (Stepper.direction_set Direction.cw Direction.cw).2 = [false] ∧
    (Stepper.direction_set Direction.cw Direction.cw).2 ≠ [] := by
  refine ⟨rfl, rfl, by simp [Stepper.direction_set]⟩

/-- C8 (amended): `src/server/stepper.py`'s direction setter writes the
pin only when the new direction differs from the current one (and GPIO is
available); `src/stepper.py`'s direction setter stores the direction but
writes the pin on every assignment, changed or not. -/
theorem C8_direction_amended (g : Bool) (cur new : Direction) :
    (cur = new → (Srv.Stepper.direction_set g cur new).2 = []) ∧
    (cur ≠ new → (Srv.Stepper.direction_set true cur new).2 =
      [decide (new = Direction.cw)]) ∧
    (Srv.Stepper.direction_set g cur new).1 = new ∧
    (Stepper.direction_set cur new).2 = [decide (new = Direction.ccw)] ∧
    (Stepper.direction_set cur new).1 = new := by
  refine ⟨fun h => by simp [Srv.Stepper.direction_set, h],
    fun h => by simp [Srv.Stepper.direction_set, h], rfl, rfl, rfl⟩

/-- C8 witness: instantiating the amended theorem at an actual change
(`cw` to `ccw`): the server setter performs exactly one pin write. -/
theorem C8_direction_witness :
    Direction.cw ≠ Direction.ccw ∧
    (Srv.Stepper.direction_set true Direction.cw Direction.ccw).2 = [false] :=
  ⟨by decide, by
    have h := (C8_direction_amended true Direction.cw Direction.ccw).2.1
      (by decide)
    simpa using h⟩

/-! ## Message codec (`src/msgs.py`)

Messages are JSON texts.  The character-level lexing of Python's `json`
library is out of scope; the wire format is modelled one level up, as the
token stream the library prints and parses.  Python floats appear as `num`
(modelled as exact rationals), Python ints as `int`, so `json.loads`'s
int/float distinction is preserved. -/

/-- A JSON value as produced by `json.loads`: a string, a float, an int, or
an object (a Python dict, whose insertion order `json.dumps` preserves). -/
inductive JVal where
  | str (s : String)
  | num (q : ℚ)
  | int (n : ℤ)
  | obj (fields : List (String × JVal))

/-- One token of a serialized JSON text. -/
inductive JTok where
  | lbrace
  | rbrace
  | colon
  | comma
  | tstr (s : String)
  | tnum (q : ℚ)
  | tint (n : ℤ)

mutual

/-- `json.dumps`, at token level: serialize one JSON value. -/
def dumpVal : JVal → List JTok
  | .str s => [.tstr s]
  | .num q => [.tnum q]
  | .int n => [.tint n]
  | .obj fs => .lbrace :: (dumpFields fs ++ [.rbrace])

/-- `json.dumps`, at token level: serialize an object's comma-separated
`key: value` members. -/
def dumpFields : List (String × JVal) → List JTok
  | [] => []
  | [(k, v)] => .tstr k :: .colon :: dumpVal v
  | (k, v) :: f :: rest =>
    .tstr k :: .colon :: (dumpVal v ++ .comma :: dumpFields (f :: rest))

end

mutual

/-- `json.loads`, at token level: parse one JSON value off the front of the
token stream, returning it and the remaining tokens.  The fuel argument
bounds the recursion depth; `loads` supplies enough for any input. -/
def parseVal : ℕ → List JTok → Option (JVal × List JTok)
  | 0, _ => none
  | _ + 1, [] => none
  | fuel + 1, t :: ts =>
    match t with
    | .tstr s => some (.str s, ts)
    | .tnum q => some (.num q, ts)
    | .tint n => some (.int n, ts)
    | .lbrace =>
      match ts with
      | .rbrace :: rest => some (.obj [], rest)
      | _ =>
        match parseFields fuel ts with
        | some (fs, rest) => some (.obj fs, rest)
        | none => none
    | _ => none

/-- `json.loads`, at token level: parse one or more `key: value` members
followed by the object's closing brace. -/
def parseFields : ℕ → List JTok → Option (List (String × JVal) × List JTok)
  | 0, _ => none
  | fuel + 1, .tstr k :: .colon :: ts =>
    match parseVal fuel ts with
    | some (v, ts') =>
      match ts' with
      | .comma :: ts'' =>
        match parseFields fuel ts'' with
        | some (fs, rest) => some ((k, v) :: fs, rest)
        | none => none
      | .rbrace :: rest => some ([(k, v)], rest)
      | _ => none
    | none => none
  | _ + 1, _ => none

end

/-- Parse a complete token stream into one JSON value, requiring that it is
consumed entirely. -/
def loads (ts : List JTok) : Option JVal :=
  match parseVal (ts.length + 1) ts with
  | some (v, []) => some v
  | _ => none

namespace msgs

/-- `src/msgs.py` `status_resp`: builds the dict
`{"type": "status", "base": base, "elevation": elevation, "shots": shots}`
(in this insertion order). -/
def status_resp (base elevation : ℚ) (shots : ℤ) : List (String × JVal) :=
  [("type", JVal.str "status"), ("base", JVal.num base),
    ("elevation", JVal.num elevation), ("shots", JVal.int shots)]

/-- `src/msgs.py` `encode`: `json.dumps(msg).encode("utf-8")`, at token
level. -/
def encode (msg : List (String × JVal)) : List JTok :=
  dumpVal (.obj msg)

/-- `src/msgs.py` `decode`: `json.loads(msg.decode("utf-8"))`, at token
level. -/
def decode (ts : List JTok) : Option JVal :=
  loads ts

end msgs

/-- C9: decoding the encoding of the status response message built from
base `b`, elevation `e` and non-negative shot count `s` yields the message
itself (as the dict `json.loads` returns).  Floats are modelled as exact
rationals. -/
theorem C9_status_roundtrip (b e : ℚ) (s : ℤ) (hs : 0 ≤ s) :
    msgs.decode (msgs.encode (msgs.status_resp b e s)) =
      some (JVal.obj (msgs.status_resp b e s)) := by
  simp [msgs.decode, msgs.encode, msgs.status_resp, loads, dumpVal,
    dumpFields, parseVal, parseFields]

/-- C9 witness: the round trip at `base = 1/2`, `elevation = 3`,
`shots = 5`. -/
theorem C9_status_roundtrip_witness :
    (0 : ℤ) ≤ 5 ∧
      msgs.decode (msgs.encode (msgs.status_resp (1/2) 3 5)) =
        some (JVal.obj (msgs.status_resp (1/2) 3 5)) :=
  ⟨by norm_num, C9_status_roundtrip (1/2) 3 5 (by norm_num)⟩

/-- Python `==` between a loaded JSON value and a string literal: true
exactly for an equal string, false for every other value. -/
def isStr (v : JVal) (s : String) : Bool :=
  match v with
  | .str t => t = s
  | _ => false

/-- `isStr` decides equality with the string value. -/
lemma isStr_eq_true (v : JVal) (s : String) :
    isStr v s = true ↔ v = JVal.str s := by
  cases v <;> simp [isStr]

/-- Python dict key access on a decoded JSON object, `m[k]`: `none` models
a raised `KeyError`. -/
def dictGet (m : List (String × JVal)) (k : String) : Option JVal :=
  match m with
  | [] => none
  | (k', v) :: rest => if k' = k then some v else dictGet rest k

namespace msgs

/-- `src/msgs.py` `is_stepper_msg`: `msg["type"] == "stepper"`; accessing a
missing `"type"` key raises (`none`). -/
def is_stepper_msg (m : List (String × JVal)) : Option Bool :=
  (dictGet m "type").map (fun v => isStr v "stepper")

/-- `src/msgs.py` `is_fire_msg`: `msg["type"] == "fire"`. -/
def is_fire_msg (m : List (String × JVal)) : Option Bool :=
  (dictGet m "type").map (fun v => isStr v "fire")

/-- `src/msgs.py` `is_status_req`: `msg["type"] == "status"`. -/
def is_status_req (m : List (String × JVal)) : Option Bool :=
  (dictGet m "type").map (fun v => isStr v "status")

/-- `src/msgs.py` `is_stop_msg`: as written in the source it tests
`msg["type"] == "status"` — the literal is `"status"`, not `"stop"`. -/
def is_stop_msg (m : List (String × JVal)) : Option Bool :=
  (dictGet m "type").map (fun v => isStr v "status")

end msgs

/-! ## Datagram server loop (`src/server/__main__.py`)

State of the `main` loop: the `shots` counter, the `should_exit` flag, and
the two motor shaft angles.  A `"stepper"` command's `to_angle` call is
abstracted to setting the axis to the commanded angle (claim C1 covers the
convergence loop itself); the encoder reads behind a `"status"` request are
abstracted to reading the axis angles. -/

/-- The mutable state of the datagram server's receive loop. -/
structure SrvState where
  shots : ℤ
  should_exit : Bool
  base_angle : ℚ
  elev_angle : ℚ
  deriving DecidableEq, Repr

/-- An uncaught Python exception terminating the receive loop. -/
inductive SrvErr where
  | keyError (k : String)
  | runtimeError
  | typeError
  deriving DecidableEq, Repr

/-- One iteration of the `while not should_exit` body of
`src/server/__main__.py` `main`, applied to one decoded datagram: checks
`is_stepper_msg` / `is_fire_msg` / `is_status_req` in order, falls through
silently when none matches, and raises (`Except.error`) on a missing key,
an unknown stepper `target` (`RuntimeError`), or a non-numeric field.
Returns the new state and the response datagram sent back, if any. -/
def serverStep (st : SrvState) (m : List (String × JVal)) :
    Except SrvErr (SrvState × Option (List (String × JVal))) :=
  match dictGet m "type" with
  | none => .error (.keyError "type")
  | some t =>
    if isStr t "stepper" then
      match dictGet m "target" with
      | none => .error (.keyError "target")
      | some tgt =>
        if isStr tgt "base" then
          match dictGet m "angle" with
          | none => .error (.keyError "angle")
          | some (.num q) => .ok ({ st with base_angle := q }, none)
          | some (.int n) => .ok ({ st with base_angle := (n : ℚ) }, none)
          | some _ => .error .typeError
        else if isStr tgt "elevation" then
          match dictGet m "angle" with
          | none => .error (.keyError "angle")
          | some (.num q) => .ok ({ st with elev_angle := q }, none)
          | some (.int n) => .ok ({ st with elev_angle := (n : ℚ) }, none)
          | some _ => .error .typeError
        else
          .error .runtimeError
    else if isStr t "fire" then
      match dictGet m "count" with
      | none => .error (.keyError "count")
      | some (.int n) => .ok ({ st with shots := st.shots + n }, none)
      | some _ => .error .typeError
    else if isStr t "status" then
      .ok (st, some (msgs.status_resp st.base_angle st.elev_angle st.shots))
    else
      .ok (st, none)

/-- C10 counterexample: the claim's "no incoming message ever causes the
receive loop to terminate" fails: a `"stepper"` message with an unknown
`target` raises an uncaught `RuntimeError`, which terminates the receive
loop abnormally. -/
theorem C10_stop_counterexample :
    serverStep ⟨0, false, 0, 0⟩
        [("type", JVal.str "stepper"), ("target", JVal.str "turbo")] =
      .error SrvErr.runtimeError := by
  simp [serverStep, dictGet, isStr]

/-- C10 (amended): `is_stop_msg(m)` is true exactly when `m`'s `"type"`
field equals `"status"` — so a message whose type is `"stop"` is never
classified as a stop message — and no successful loop iteration changes the
`should_exit` flag, so no message ever makes the loop exit normally.  A
message can still terminate the loop by raising an uncaught exception. -/
theorem C10_stop_amended (m : List (String × JVal)) (v : JVal)
    (st : SrvState) :
    (dictGet m "type" = some v →
      (msgs.is_stop_msg m = some true ↔ v = JVal.str "status")) ∧
    msgs.is_stop_msg [("type", JVal.str "stop")] = some false ∧
    (∀ st' r, serverStep st m = .ok (st', r) →
      st'.should_exit = st.should_exit) := by
  refine ⟨?_, ?_, ?_⟩
  · intro h
    rw [msgs.is_stop_msg, h, Option.map_some']
    rw [show (some (isStr v "status") = some true) ↔ isStr v "status" = true
        from by simp]
    exact isStr_eq_true v "status"
  · simp [msgs.is_stop_msg, dictGet, isStr]
  · intro st' r h
    unfold serverStep at h
    repeat' split at h
    all_goals simp at h
    all_goals try obtain ⟨h1, h2⟩ := h
    all_goals try subst h1
    all_goals rfl

/-- C10 witness: a message whose `"type"` is `"status"` is (mis)classified
as a stop message by `is_stop_msg`. -/
theorem C10_stop_witness :
    msgs.is_stop_msg [("type", JVal.str "status")] = some true :=
  ((C10_stop_amended [("type", JVal.str "status")] (JVal.str "status")
      ⟨0, false, 0, 0⟩).1 rfl).mpr rfl

/-! ## Turret state and firing sequence (`src/turretd.py`) -/

/-- The turret's observable state: azimuth (base stepper) angle, elevation
servo angle, and the shot counter. -/
structure Turret where
  base_angle : ℚ
  elev_angle : ℚ
  shots : ℤ
  deriving DecidableEq, Repr

/-- An actuator event emitted during a firing sequence, in order: power
relay transitions, `time.sleep` delays, trigger-servo angle writes, and
the final shot-counter assignment. -/
inductive TEvent where
  | relayOn
  | relayOff
  | sleep (t : ℚ)
  | trigger (angle : ℚ)
  | setShots (n : ℤ)
  deriving DecidableEq, Repr

namespace Turret

/-- `src/turretd.py` `Turret.move`: base via the stepper's closed loop
(claim C1 covers its convergence; the resulting state holds the commanded
angle), elevation set directly on the open-loop servo. -/
def move (t : Turret) (base elev : ℚ) : Turret :=
  { t with base_angle := base, elev_angle := elev }

/-- `src/turretd.py` `Turret.shoot`: relay on, `sleep(0.5)`, then for each
of `range(n)` (empty when `n ≤ 0`): trigger servo to `-33`, `sleep(1.0)`,
trigger servo to `0`, `sleep(1.0)`; relay off; and only then
`self.shots += n`.  Returns the new state and the ordered event trace. -/
def shoot (t : Turret) (n : ℤ) : Turret × List TEvent :=
  ({ t with shots := t.shots + n },
    TEvent.relayOn :: TEvent.sleep (1/2) ::
      ((List.replicate n.toNat
          [TEvent.trigger (-33), TEvent.sleep 1,
            TEvent.trigger 0, TEvent.sleep 1]).flatten ++
        [TEvent.relayOff, TEvent.setShots (t.shots + n)]))

end Turret

/-- Occurrence count in `k` concatenated copies of a list. -/
lemma count_flatten_replicate {α : Type} [DecidableEq α] (x : α) (l : List α) :
    ∀ k : ℕ, ((List.replicate k l).flatten.count x) = k * l.count x := by
  intro k
  induction k with
  | zero => simp
  | succ n ih =>
    simp [List.replicate_succ, List.count_append, ih]
    ring

/-- C5: `shoot(n)` for `n ≥ 0` ends with the shot counter increased by
exactly `n`; the relay turns on exactly once and off exactly once per call
regardless of `n`; the trigger servo extends exactly `n` times; and the
counter assignment is the last event of the sequence, after the relay has
been switched off. -/
theorem C5_shoot_counts (t : Turret) (n : ℤ) (hn : 0 ≤ n) :
    (t.shoot n).1.shots = t.shots + n ∧
    ((t.shoot n).2.count TEvent.relayOn) = 1 ∧
    ((t.shoot n).2.count TEvent.relayOff) = 1 ∧
    (((t.shoot n).2.count (TEvent.trigger (-33))) : ℤ) = n ∧
    (∃ pre, (t.shoot n).2 =
      pre ++ [TEvent.relayOff, TEvent.setShots (t.shots + n)]) := by
  refine ⟨by simp [Turret.shoot], ?_, ?_, ?_, ?_⟩
  · simp [Turret.shoot, List.count_cons, List.count_append,
      count_flatten_replicate]
  · simp [Turret.shoot, List.count_cons, List.count_append,
      count_flatten_replicate]
  · simp [Turret.shoot, List.count_cons, List.count_append,
      count_flatten_replicate]
    omega
  · exact ⟨TEvent.relayOn :: TEvent.sleep (1/2) ::
      (List.replicate n.toNat
        [TEvent.trigger (-33), TEvent.sleep 1,
          TEvent.trigger 0, TEvent.sleep 1]).flatten,
      by simp [Turret.shoot]⟩

/-- C5 witness: `shoot(3)` from `shots = 0`: the counter becomes `3`, the
relay cycles once, the trigger extends three times, and the counter is set
last. -/
theorem C5_shoot_counts_witness :
    (0 : ℤ) ≤ 3 ∧
      ((Turret.mk 0 0 0).shoot 3).1.shots = 0 + 3 ∧
      (((Turret.mk 0 0 0).shoot 3).2.count TEvent.relayOn) = 1 ∧
      (((Turret.mk 0 0 0).shoot 3).2.count TEvent.relayOff) = 1 ∧
      ((((Turret.mk 0 0 0).shoot 3).2.count (TEvent.trigger (-33))) : ℤ) = 3 ∧
      (∃ pre, ((Turret.mk 0 0 0).shoot 3).2 =
        pre ++ [TEvent.relayOff, TEvent.setShots (0 + 3)]) :=
  ⟨by norm_num, C5_shoot_counts (Turret.mk 0 0 0) 3 (by norm_num)⟩

/-! ## Command dispatcher (`src/turretd.py` `_handle_msg`,
`_handle_connection`) -/

/-- Modelled from the spec: the TCP codec `turret_client.msgs` used by
`turretd.py` is not among this repository's sources.  Per spec §4.5 a
variant decodes successfully iff the frame is parseable and the variant's
required fields are all present and well-typed, so a received frame is
modelled as either unparseable bytes (`garbage`) or a set of optional
typed fields. -/
inductive Frame where
  | garbage
  | fields (base_angle : Option ℚ) (elev_angle : Option ℚ) (times : Option ℤ)

/-- Modelled from the spec: `msgs.decode(bytes, MoveMsg)` — required
fields `base_angle` and `elev_angle`. -/
def decodeMove : Frame → Option (ℚ × ℚ)
  | .fields (some b) (some e) _ => some (b, e)
  | _ => none

/-- Modelled from the spec: `msgs.decode(bytes, ShootMsg)` — required
field `times`. -/
def decodeShoot : Frame → Option ℤ
  | .fields _ _ (some k) => some k
  | _ => none

/-- Modelled from the spec: `msgs.decode(bytes, RequestStatusMsg)` — no
required fields, so every parseable frame matches. -/
def decodeStatusReq : Frame → Option Unit
  | .fields _ _ _ => some ()
  | .garbage => none

/-- Modelled from the spec: `msgs.decode(bytes, ResetMsg)` — no required
fields. -/
def decodeReset : Frame → Option Unit
  | .fields _ _ _ => some ()
  | .garbage => none

/-- A response sent back on the TCP connection: `_handle_msg` returning
`None` makes `_handle_connection` send an `AckMsg`; a status request
returns a `StatusMsg`. -/
inductive Resp where
  | ack
  | status (base elev : ℚ) (shots : ℤ)
  deriving DecidableEq, Repr

/-- `src/turretd.py` `_handle_msg`: tries `MoveMsg`, `ShootMsg`,
`RequestStatusMsg`, `ResetMsg` in that order; the first variant that
decodes is executed and the handler returns without trying any further
variant; when all four fail it raises `ValueError("Unsupported command")`.
The firing sequence's actuator events are returned alongside the new
state. -/
def handle_msg (m : Frame) (t : Turret) :
    Except String (Turret × Resp × List TEvent) :=
  match decodeMove m with
  | some (b, e) => .ok (t.move b e, .ack, [])
  | none =>
    match decodeShoot m with
    | some k => .ok ((t.shoot k).1, .ack, (t.shoot k).2)
    | none =>
      match decodeStatusReq m with
      | some _ => .ok (t, .status t.base_angle t.elev_angle t.shots, [])
      | none =>
        match decodeReset m with
        | some _ => .ok ({ t.move 0 0 with shots := 0 }, .ack, [])
        | none => .error "Unsupported command"

/-- `src/turretd.py` `_handle_connection`: handles each received frame in
turn, sending the response; a `ValueError` raised by `_handle_msg` is
logged and the loop continues with the same turret state and the
connection open. -/
def handle_connection : List Frame → Turret → Turret × List Resp
  | [], t => (t, [])
  | m :: rest, t =>
    match handle_msg m t with
    | .ok (t', r, _) =>
      ((handle_connection rest t').1, r :: (handle_connection rest t').2)
    | .error _ => handle_connection rest t

/-- C4: the dispatcher classifies in the fixed priority order `Move`,
`Shoot`, `StatusRequest`, `Reset`: the first variant that decodes is
executed and no later variant is attempted; in particular a frame
satisfying both the `Move` and the `Shoot` field shapes is executed as a
`Move` — and is not executed as a `Shoot` — so no frame is ever classified
as both. -/
theorem C4_dispatch_priority (m : Frame) (t : Turret) :
    (∀ b e, decodeMove m = some (b, e) →
      handle_msg m t = .ok (t.move b e, .ack, [])) ∧
    (decodeMove m = none → ∀ k, decodeShoot m = some k →
      handle_msg m t = .ok ((t.shoot k).1, .ack, (t.shoot k).2)) ∧
    (decodeMove m = none → decodeShoot m = none →
      decodeStatusReq m = some () →
      handle_msg m t = .ok (t, .status t.base_angle t.elev_angle t.shots, [])) ∧
    (decodeMove m = none → decodeShoot m = none → decodeStatusReq m = none →
      decodeReset m = some () →
      handle_msg m t = .ok ({ t.move 0 0 with shots := 0 }, .ack, [])) ∧
    (∀ b e k, decodeMove m = some (b, e) → decodeShoot m = some k →
      handle_msg m t = .ok (t.move b e, .ack, []) ∧
      handle_msg m t ≠ .ok ((t.shoot k).1, .ack, (t.shoot k).2)) := by
  refine ⟨?_, ?_, ?_, ?_, ?_⟩
  · intro b e h
    simp [handle_msg, h]
  · intro h1 k h2
    simp [handle_msg, h1, h2]
  · intro h1 h2 h3
    simp [handle_msg, h1, h2, h3]
  · intro h1 h2 h3 h4
    simp [handle_msg, h1, h2, h3, h4]
  · intro b e k h1 h2
    refine ⟨by simp [handle_msg, h1], ?_⟩
    simp only [handle_msg, h1]
    intro hcontra
    have h3 : ([] : List TEvent) = (t.shoot k).2 := by
      have := (Prod.mk.injEq _ _ _ _).mp
        ((Except.ok.injEq _ _).mp hcontra)
      exact ((Prod.mk.injEq _ _ _ _).mp this.2).2
    simp [Turret.shoot] at h3

/-- C4 witness: a frame carrying `base_angle`, `elev_angle` and `times`
satisfies both the `Move` and `Shoot` shapes; the dispatcher executes it
as a `Move` and not as a `Shoot`. -/
theorem C4_dispatch_priority_witness :
    handle_msg (Frame.fields (some 1) (some 2) (some 3)) (Turret.mk 0 0 0) =
        .ok ((Turret.mk 0 0 0).move 1 2, .ack, []) ∧
      handle_msg (Frame.fields (some 1) (some 2) (some 3)) (Turret.mk 0 0 0) ≠
        .ok (((Turret.mk 0 0 0).shoot 3).1, .ack,
          ((Turret.mk 0 0 0).shoot 3).2) :=
  (C4_dispatch_priority (Frame.fields (some 1) (some 2) (some 3))
      (Turret.mk 0 0 0)).2.2.2.2 1 2 3 rfl rfl

/-- C7: a frame that fails classification against all four variants makes
`_handle_msg` raise `ValueError("Unsupported command")`; the connection
loop logs it and carries on: the turret state is unchanged and the
remaining messages of the session are processed exactly as if the bad
frame had never arrived. -/
theorem C7_unsupported_msg (m : Frame) (t : Turret) (rest : List Frame)
    (h1 : decodeMove m = none) (h2 : decodeShoot m = none)
    (h3 : decodeStatusReq m = none) (h4 : decodeReset m = none) :
    handle_msg m t = .error "Unsupported command" ∧
    handle_connection (m :: rest) t = handle_connection rest t := by
  have hmsg : handle_msg m t = .error "Unsupported command" := by
    simp [handle_msg, h1, h2, h3, h4]
  exact ⟨hmsg, by simp [handle_connection, hmsg]⟩

/-- C7 witness: an unparseable frame is rejected and the session
continues: handling `[garbage]` leaves the state where handling `[]`
does. -/
theorem C7_unsupported_msg_witness :
    handle_msg Frame.garbage (Turret.mk 0 0 0) =
        .error "Unsupported command" ∧
      handle_connection [Frame.garbage] (Turret.mk 0 0 0) =
        handle_connection [] (Turret.mk 0 0 0) :=
  C7_unsupported_msg Frame.garbage (Turret.mk 0 0 0) [] rfl rfl rfl rfl
